import Mathlib

/-!
# Verification of the applicant-management API (job-tracker)

Shallow embedding of the Go source (Fiber controllers + GORM store +
Redis cache) as pure Lean functions over explicit state, and proofs of
the frozen claims C1–C10 about it.

Modelling conventions:
* The GORM-backed Postgres store is a list of rows plus failure-injection
  flags (one per kind of store call) so that "a store call fails with a
  store error" is expressible; the Redis cache is an association list
  plus a `down` flag ("backend unreachable").
* `json.Marshal`/`json.Unmarshal` round-trip is abstracted to the
  identity: cache entries hold the applicant list directly.
* Time is an explicit `Nat` parameter (`now`); TTLs are seconds.
* Go `strings.TrimSpace`/`ToLower`/`strings.Split` are modelled by
  structural functions on the character list (ASCII; no claim depends
  on non-ASCII whitespace or case mapping).
-/

namespace JobTracker

/-- models.Applicant (src/models/applicant.go). `DeletedAt` is GORM's
soft-delete marker: `none` = live, `some t` = soft-deleted at time t. -/
structure Applicant where
  id : Nat
  createdAt : Nat
  updatedAt : Nat
  deletedAt : Option Nat
  name : String
  email : String
  position : String
  status : String
  phone : String
  resume : String
  notes : String
deriving Repr, DecidableEq

/- ## utils/validation.go -/

/-- Character class `[a-zA-Z0-9._%+-]` of the email regex's local part. -/
def isLocalChar (c : Char) : Bool :=
  c.isAlpha || c.isDigit || c == '.' || c == '_' || c == '%' || c == '+' || c == '-'

/-- Character class `[a-zA-Z0-9.-]` of the email regex's domain part. -/
def isDomainChar (c : Char) : Bool :=
  c.isAlpha || c.isDigit || c == '.' || c == '-'

/-- Split a character list at every separator (the list analogue of
`strings.Split`: n separators yield n+1 parts, empty parts included). -/
def splitOnChar (p : Char → Bool) : List Char → List (List Char)
  | [] => [[]]
  | c :: cs =>
    if p c then [] :: splitOnChar p cs
    else
      match splitOnChar p cs with
      | [] => [[c]]
      | t :: ts => (c :: t) :: ts

/-- Re-join parts with a dot separator (inverse of splitting on dots). -/
def joinDots : List (List Char) → List Char
  | [] => []
  | [p] => p
  | p :: ps => p ++ '.' :: joinDots ps

/-- utils.ValidateEmail: full-anchored match of
`^[a-zA-Z0-9._%+-]+@[a-zA-Z0-9.-]+\.[a-zA-Z]{2,}$`.
A string matches iff it splits as `local@domain.tld` where `local` is a
nonempty run of local chars, `domain` (the part before the LAST dot of
the tail) is a nonempty run of domain chars, and `tld` is ≥ 2 letters.
Since the local class excludes `@` and the tld class excludes `.`, the
split points are forced, giving this deterministic equivalent of the
backtracking regex. -/
def ValidateEmail (s : String) : Bool :=
  match splitOnChar (fun c => c == '@') s.data with
  | [l, dom] =>
    !l.isEmpty && l.all isLocalChar &&
    (match (splitOnChar (fun c => c == '.') dom).reverse with
     | t :: d1 :: ds =>
       let d := joinDots ((d1 :: ds).reverse)
       !d.isEmpty && d.all isDomainChar && decide (t.length ≥ 2) && t.all Char.isAlpha
     | _ => false)
  | _ => false

/-- Character class `[\d\s\-\(\)]` of the phone regex (Go `\s` is
`[\t\n\f\r ]`). -/
def isPhoneChar (c : Char) : Bool :=
  c.isDigit || c == ' ' || c == '\t' || c == '\n' || c == '\x0c' || c == '\r' ||
  c == '-' || c == '(' || c == ')'

/-- utils.ValidatePhone: empty is valid; otherwise full-anchored match of
`^\+?[\d\s\-\(\)]{10,15}$` (`+` is not in the class, so a leading `+` is
consumed by `\+?` and the remainder must be 10–15 class chars). -/
def ValidatePhone (s : String) : Bool :=
  if s == "" then true
  else
    match s.data with
    | '+' :: rest => decide (10 ≤ rest.length) && decide (rest.length ≤ 15) && rest.all isPhoneChar
    | ds => decide (10 ≤ ds.length) && decide (ds.length ≤ 15) && ds.all isPhoneChar

/-- utils.ValidateStatus: membership in the fixed five-value enumeration. -/
def ValidateStatus (status : String) : Bool :=
  ["pending", "reviewed", "interviewed", "hired", "rejected"].contains status

/-- ASCII whitespace recognized by strings.TrimSpace. -/
def isSpaceChar (c : Char) : Bool :=
  c == ' ' || c == '\t' || c == '\n' || c == '\x0b' || c == '\x0c' || c == '\r'

/-- utils.SanitizeString = strings.TrimSpace: drop whitespace from both
ends (ASCII; no claim exercises non-ASCII whitespace). -/
def SanitizeString (input : String) : String :=
  String.mk (((input.data.dropWhile isSpaceChar).reverse.dropWhile isSpaceChar).reverse)

/-- strings.ToLower (ASCII case mapping). -/
def goToLower (s : String) : String := String.mk (s.data.map Char.toLower)

/- ## strconv.Atoi with its error ignored (controllers use `v, _ := strconv.Atoi(s)`) -/

/-- Whether `strconv.Atoi` succeeds on `s`: optional sign followed by at
least one digit (overflow, which Go reports while still returning a
clamped value, is out of scope: no claim exercises it). -/
def isGoNumeric (s : String) : Bool :=
  match s.data with
  | [] => false
  | c :: ds =>
    if c == '+' || c == '-' then !ds.isEmpty && ds.all Char.isDigit
    else (c :: ds).all Char.isDigit

/-- Decimal value of a digit string. -/
def digitsVal (l : List Char) : Nat :=
  l.foldl (fun acc c => 10 * acc + (c.toNat - 48)) 0

/-- `v, _ := strconv.Atoi(s)`: the parsed value on success, 0 when the
(ignored) error is non-nil. -/
def goAtoi (s : String) : Int :=
  if isGoNumeric s then
    match s.data with
    | '+' :: ds => (digitsVal ds : Int)
    | '-' :: ds => -(digitsVal ds : Int)
    | ds => (digitsVal ds : Int)
  else 0

/- ## fmt.Sprintf("applicants_page_%d_limit_%d", pageInt, limitInt) -/

/-- Decimal digit characters of a natural number, most significant
first (fuel-based structural recursion so that the kernel can evaluate
it; `natDigits_def` below gives the natural recursion equation). -/
def natDigitsAux (fuel n : Nat) : List Char :=
  match fuel with
  | 0 => []
  | fuel + 1 =>
    if n < 10 then [Nat.digitChar n]
    else natDigitsAux fuel (n / 10) ++ [Nat.digitChar (n % 10)]

/-- The `%d` rendering of a non-negative integer. -/
def natDigits (n : Nat) : List Char := natDigitsAux (n + 1) n

/-- `%d` rendering of an integer: optional minus sign then digits. -/
def intChars (i : Int) : List Char :=
  if i < 0 then '-' :: natDigits i.natAbs else natDigits i.toNat

/-- The Redis cache key `applicants_page_{page}_limit_{limit}` built by
GetApplicants via fmt.Sprintf. -/
def listCacheKey (page limit : Int) : String :=
  String.mk ("applicants_page_".data ++ intChars page ++ "_limit_".data ++ intChars limit)

/- ## The persistent store (GORM + Postgres, src/unnamed/part_005 and the
schema tags of models.Applicant) -/

/-- Error of a store call, as seen through GORM: `notFound` is
`gorm.ErrRecordNotFound`; `storeErr` is any other database error
(connection failure, constraint violation, ...). -/
inductive DbErr where
  | notFound
  | storeErr
deriving Repr, DecidableEq

/-- The store: the `applicants` table plus one failure-injection flag
per kind of store call the controllers make, so that "the store call
fails with a store error" is a stateable hypothesis. -/
structure DbState where
  rows : List Applicant
  nextId : Nat
  findErr : Bool
  listErr : Bool
  insertErr : Bool
  updateErr : Bool
  deleteErr : Bool
deriving Repr, DecidableEq

/-- `DB.Where("email = ?", e).First(&x)`: first row with that email,
restricted (by GORM's soft-delete scope) to rows with `deleted_at IS
NULL`; `ErrRecordNotFound` when none matches. -/
def dbFirstByEmail (db : DbState) (e : String) : Except DbErr Applicant :=
  if db.findErr then .error .storeErr
  else
    match db.rows.find? (fun r => r.deletedAt.isNone && r.email == e) with
    | some r => .ok r
    | none => .error .notFound

/-- `DB.First(&x, id)`: lookup by primary key among non-deleted rows. -/
def dbFirstById (db : DbState) (i : Nat) : Except DbErr Applicant :=
  if db.findErr then .error .storeErr
  else
    match db.rows.find? (fun r => r.deletedAt.isNone && r.id == i) with
    | some r => .ok r
    | none => .error .notFound

/-- `DB.Create(&a)`: fails on an injected error or when the
UNCONDITIONAL unique constraint on email (`gorm:"unique"`, enforced over
all rows, soft-deleted ones included) is violated; otherwise inserts
with the next id and both timestamps set to now. The struct's
`DeletedAt` is inserted AS-IS: GORM does not normalize it, and the field
is settable from the request body (`gorm.DeletedAt` implements
UnmarshalJSON and carries `json:"deleted_at"`), so a create can insert
an already-soft-deleted row. -/
def dbInsert (db : DbState) (a : Applicant) (now : Nat) :
    Except DbErr (DbState × Applicant) :=
  if db.insertErr || db.rows.any (fun r => r.email == a.email) then .error .storeErr
  else
    let a' := { a with id := db.nextId, createdAt := now, updatedAt := now }
    .ok ({ db with rows := db.rows ++ [a'], nextId := db.nextId + 1 }, a')

/-- `DB.Offset(offset).Limit(limit).Find(&apps)` over the soft-delete
scope. GORM treats a negative offset/limit as "no offset"/"no limit". -/
def dbListQuery (db : DbState) (offset limit : Int) :
    Except DbErr (List Applicant) :=
  if db.listErr then .error .storeErr
  else
    let live := db.rows.filter (fun r => r.deletedAt.isNone)
    let afterOff := if offset ≤ 0 then live else live.drop offset.toNat
    .ok (if limit < 0 then afterOff else afterOff.take limit.toNat)

/-- GORM `Updates(struct)` merge: only non-zero fields of the supplied
struct are written; for the string fields of Applicant the zero value is
`""`. `updated_at` is refreshed by GORM. -/
def mergeUpdate (old upd : Applicant) (now : Nat) : Applicant :=
  { old with
    updatedAt := now
    name := if upd.name == "" then old.name else upd.name
    email := if upd.email == "" then old.email else upd.email
    position := if upd.position == "" then old.position else upd.position
    status := if upd.status == "" then old.status else upd.status
    phone := if upd.phone == "" then old.phone else upd.phone
    resume := if upd.resume == "" then old.resume else upd.resume
    notes := if upd.notes == "" then old.notes else upd.notes }

/-- `DB.Model(&target).Updates(upd)`: writes the merged record at the
target's primary key; also yields the merged record (GORM writes the
merged values back into the in-memory struct the handler then returns). -/
def dbUpdate (db : DbState) (target upd : Applicant) (now : Nat) :
    Except DbErr (DbState × Applicant) :=
  if db.updateErr then .error .storeErr
  else
    let m := mergeUpdate target upd now
    .ok ({ db with rows := db.rows.map (fun r => if r.id == target.id then m else r) }, m)

/-- `DB.Delete(&a)` on a model with `gorm.DeletedAt`: soft delete, i.e.
`UPDATE ... SET deleted_at = now WHERE id = ? AND deleted_at IS NULL`;
the row stays in the table. -/
def dbDelete (db : DbState) (a : Applicant) (now : Nat) : Except DbErr DbState :=
  if db.deleteErr then .error .storeErr
  else
    let mark := fun (r : Applicant) =>
      if r.id == a.id && r.deletedAt.isNone then { r with deletedAt := some now } else r
    .ok { db with rows := db.rows.map mark }

/- ## The Redis cache (go-redis client `rdb` in src/unnamed/part_002) -/

/-- Outcome of `rdb.Get`: a hit carries the cached (deserialized) page;
`miss` is `redis.Nil`; `err` is any other error (backend unreachable). -/
inductive CacheResult where
  | hit (v : List Applicant)
  | miss
  | err
deriving Repr, DecidableEq

/-- The cache: key → (value, remaining TTL in seconds) entries, plus a
`down` flag modelling an unreachable backend (every command errors and
changes nothing). -/
structure CacheState where
  entries : List (String × List Applicant × Nat)
  down : Bool
deriving Repr, DecidableEq

/-- `rdb.Get(ctx, k)`. -/
def cacheGet (c : CacheState) (k : String) : CacheResult :=
  if c.down then .err
  else
    match c.entries.find? (fun e => e.1 == k) with
    | some e => .hit e.2.1
    | none => .miss

/-- `rdb.Set(ctx, k, v, ttl)` (its error, if any, is ignored by the code). -/
def cacheSet (c : CacheState) (k : String) (v : List Applicant) (ttl : Nat) :
    CacheState :=
  if c.down then c
  else { c with entries := (k, v, ttl) :: c.entries.filter (fun e => !(e.1 == k)) }

/-- `rdb.Del(ctx, ks...)` (its error, if any, is ignored by the code). -/
def cacheDel (c : CacheState) (ks : List String) : CacheState :=
  if c.down then c
  else { c with entries := c.entries.filter (fun e => !(ks.contains e.1)) }

/-- What the cache currently associates to a key. -/
def cacheLookup (c : CacheState) (k : String) : Option (List Applicant × Nat) :=
  match c.entries.find? (fun e => e.1 == k) with
  | some e => some e.2
  | none => none

/-- Whole-system state: store + cache. -/
structure Sys where
  db : DbState
  cache : CacheState
deriving Repr, DecidableEq

/-- The two hardcoded keys passed to `rdb.Del` after every successful
mutation. -/
def fixedKeys : List String := ["applicants_page_1_limit_10", "applicants_page_1_limit_20"]

/- ## Controllers (src/unnamed/part_002). Each handler is a pure
function of the parsed request and the system state, returning the
response (status + body), the next state, and an effect record (store
queries issued, cache writes, cache deletions) so that "the store is not
queried" and "no cache write is attempted" are stateable. -/

/-- The sanitization block of CreateApplicant: TrimSpace on name, email,
position, phone, notes (resume and status are NOT sanitized by the
code), and lowercasing of email. -/
def sanitizeCreate (input : Applicant) : Applicant :=
  { input with
    name := SanitizeString input.name
    email := goToLower (SanitizeString input.email)
    position := SanitizeString input.position
    phone := SanitizeString input.phone
    notes := SanitizeString input.notes }

/-- The pre-uniqueness validation chain of CreateApplicant (all of whose
failures answer 400 with no effect), on the already-sanitized input:
required fields, email format, phone format if present, status value if
present. -/
def createChecksPass (a : Applicant) : Bool :=
  !(a.name == "" || a.email == "" || a.position == "") &&
  ValidateEmail a.email &&
  (a.phone == "" || ValidatePhone a.phone) &&
  (a.status == "" || ValidateStatus a.status)

/-- The status-defaulting step of CreateApplicant: an empty status
becomes "pending" (a non-empty one was validated by `createChecksPass`). -/
def createReady (a0 : Applicant) : Applicant :=
  if a0.status == "" then { a0 with status := "pending" } else a0

/-- Result of CreateApplicant: HTTP status, created record on 201, next
system state, and the keys passed to `rdb.Del`. -/
structure CreateOut where
  status : Nat
  body : Option Applicant
  sys : Sys
  dels : List String
deriving Repr, DecidableEq

/-- controllers.CreateApplicant, after a successful body parse (a parse
failure answers 400 before anything else and is not needed by any
claim). The four 400-answering validation checks are folded into
`createChecksPass` — they run in the source's order and all produce the
same observable outcome (status 400, no state change). -/
def CreateApplicant (input : Applicant) (now : Nat) (s : Sys) : CreateOut :=
  let a0 := sanitizeCreate input
  if !createChecksPass a0 then
    { status := 400, body := none, sys := s, dels := [] }
  else
    match dbFirstByEmail s.db (createReady a0).email with
    | .ok _ => { status := 409, body := none, sys := s, dels := [] }
    | .error _ =>
      match dbInsert s.db (createReady a0) now with
      | .error _ => { status := 500, body := none, sys := s, dels := [] }
      | .ok (db', a') =>
        { status := 201, body := some a'
          sys := { db := db', cache := cacheDel s.cache fixedKeys }
          dels := fixedKeys }

/-- Result of GetApplicants: status, the `{data, page, limit}` JSON
body, next state, store queries issued as (offset, limit) pairs, and
cache writes issued as (key, value, ttl) triples. -/
structure ListOut where
  status : Nat
  data : List Applicant
  page : Int
  limit : Int
  sys : Sys
  cacheKeyUsed : String
  storeQueries : List (Int × Int)
  cacheSets : List (String × List Applicant × Nat)
deriving Repr, DecidableEq

/-- controllers.GetApplicants. `pageQ`/`limitQ` are the raw query
parameters (`none` when absent); `c.Query` substitutes "1"/"10" then,
and `strconv.Atoi`'s error is ignored. The cache TTL is
`time.Minute * 3` = 180 seconds. -/
def GetApplicants (pageQ limitQ : Option String) (s : Sys) : ListOut :=
  let pageInt := goAtoi (pageQ.getD "1")
  let limitInt := goAtoi (limitQ.getD "10")
  let cacheKey := listCacheKey pageInt limitInt
  match cacheGet s.cache cacheKey with
  | .miss =>
    let offset := (pageInt - 1) * limitInt
    match dbListQuery s.db offset limitInt with
    | .error _ =>
      { status := 500, data := [], page := pageInt, limit := limitInt, sys := s
        cacheKeyUsed := cacheKey, storeQueries := [(offset, limitInt)], cacheSets := [] }
    | .ok apps =>
      { status := 200, data := apps, page := pageInt, limit := limitInt
        sys := { s with cache := cacheSet s.cache cacheKey apps 180 }
        cacheKeyUsed := cacheKey
        storeQueries := [(offset, limitInt)], cacheSets := [(cacheKey, apps, 180)] }
  | .err =>
    let offset := (pageInt - 1) * limitInt
    match dbListQuery s.db offset limitInt with
    | .error _ =>
      { status := 500, data := [], page := pageInt, limit := limitInt, sys := s
        cacheKeyUsed := cacheKey, storeQueries := [(offset, limitInt)], cacheSets := [] }
    | .ok apps =>
      { status := 200, data := apps, page := pageInt, limit := limitInt, sys := s
        cacheKeyUsed := cacheKey, storeQueries := [(offset, limitInt)], cacheSets := [] }
  | .hit v =>
    { status := 200, data := v, page := pageInt, limit := limitInt, sys := s
      cacheKeyUsed := cacheKey, storeQueries := [], cacheSets := [] }

/-- Result of GetApplicant (read-only: no state change, no cache use). -/
structure GetOut where
  status : Nat
  body : Option Applicant
deriving Repr, DecidableEq

/-- controllers.GetApplicant: `DB.First(&a, id)`; ANY error — not-found
or store error alike — answers 404. -/
def GetApplicant (i : Nat) (s : Sys) : GetOut :=
  match dbFirstById s.db i with
  | .ok a => { status := 200, body := some a }
  | .error _ => { status := 404, body := none }

/-- Result of UpdateApplicant. -/
structure UpdateOut where
  status : Nat
  body : Option Applicant
  sys : Sys
  dels : List String
deriving Repr, DecidableEq

/-- controllers.UpdateApplicant, after a successful body parse of `upd`:
existence lookup (ANY error → 404), then `Updates` with the non-zero
fields of `upd`, then `rdb.Del` of the two fixed keys. -/
def UpdateApplicant (i : Nat) (upd : Applicant) (now : Nat) (s : Sys) : UpdateOut :=
  match dbFirstById s.db i with
  | .error _ => { status := 404, body := none, sys := s, dels := [] }
  | .ok a =>
    match dbUpdate s.db a upd now with
    | .error _ => { status := 500, body := none, sys := s, dels := [] }
    | .ok (db', m) =>
      { status := 200, body := some m
        sys := { db := db', cache := cacheDel s.cache fixedKeys }
        dels := fixedKeys }

/-- Result of DeleteApplicant. -/
structure DeleteOut where
  status : Nat
  sys : Sys
  dels : List String
deriving Repr, DecidableEq

/-- controllers.DeleteApplicant: existence lookup (ANY error → 404),
then soft delete, then `rdb.Del` of the two fixed keys. -/
def DeleteApplicant (i : Nat) (now : Nat) (s : Sys) : DeleteOut :=
  match dbFirstById s.db i with
  | .error _ => { status := 404, sys := s, dels := [] }
  | .ok a =>
    match dbDelete s.db a now with
    | .error _ => { status := 500, sys := s, dels := [] }
    | .ok db' =>
      { status := 200
        sys := { db := db', cache := cacheDel s.cache fixedKeys }
        dels := fixedKeys }

/-! ## Helper lemmas: decimal rendering and cache-key injectivity -/

theorem natDigitsAux_fuel_irrel (f1 : Nat) : ∀ f2 n : Nat, n < f1 → n < f2 →
    natDigitsAux f1 n = natDigitsAux f2 n := by
  induction f1 with
  | zero => intro f2 n h1 _; omega
  | succ f ih =>
    intro f2 n h1 h2
    cases f2 with
    | zero => omega
    | succ g =>
      show natDigitsAux (f + 1) n = natDigitsAux (g + 1) n
      unfold natDigitsAux
      by_cases h : n < 10
      · simp [h]
      · simp only [if_neg h]
        have hlt : n / 10 < n := Nat.div_lt_self (by omega) (by omega)
        rw [ih g (n / 10) (by omega) (by omega)]

theorem natDigitsAux_succ (f n : Nat) :
    natDigitsAux (f + 1) n = if n < 10 then [Nat.digitChar n]
      else natDigitsAux f (n / 10) ++ [Nat.digitChar (n % 10)] := rfl

/-- The natural recursion equation for `natDigits`. -/
theorem natDigits_def (n : Nat) :
    natDigits n = if n < 10 then [Nat.digitChar n]
                  else natDigits (n / 10) ++ [Nat.digitChar (n % 10)] := by
  by_cases h : n < 10
  · show natDigitsAux (n + 1) n = _
    rw [natDigitsAux_succ, if_pos h, if_pos h]
  · have hlt : n / 10 < n := Nat.div_lt_self (by omega) (by omega)
    show natDigitsAux (n + 1) n = _
    rw [natDigitsAux_succ, if_neg h, if_neg h,
        natDigitsAux_fuel_irrel n (n / 10 + 1) (n / 10) (by omega) (by omega)]
    rfl

theorem natDigits_ne_nil (n : Nat) : natDigits n ≠ [] := by
  rw [natDigits_def]
  split <;> simp

theorem digitChar_isDigit (d : Nat) (h : d < 10) : (Nat.digitChar d).isDigit = true := by
  interval_cases d <;> decide

theorem digitChar_inj_fin : ∀ a b : Fin 10,
    Nat.digitChar a.val = Nat.digitChar b.val → a = b := by decide

theorem mem_natDigits_isDigit (n : Nat) : ∀ c ∈ natDigits n, c.isDigit = true := by
  induction n using Nat.strong_induction_on with
  | _ n ih =>
    intro c hc
    rw [natDigits_def] at hc
    split at hc
    · rename_i h
      simp only [List.mem_singleton] at hc
      exact hc ▸ digitChar_isDigit n h
    · rename_i h
      rw [List.mem_append] at hc
      rcases hc with hc | hc
      · exact ih (n / 10) (Nat.div_lt_self (by omega) (by omega)) c hc
      · simp only [List.mem_singleton] at hc
        exact hc ▸ digitChar_isDigit _ (Nat.mod_lt _ (by omega))

theorem mem_natDigits_ne_underscore (n : Nat) (c : Char) (hc : c ∈ natDigits n) :
    c ≠ '_' := by
  intro rfl_eq
  have := mem_natDigits_isDigit n c hc
  rw [rfl_eq] at this
  exact absurd this (by decide)

theorem mem_natDigits_ne_minus (n : Nat) (c : Char) (hc : c ∈ natDigits n) :
    c ≠ '-' := by
  intro rfl_eq
  have := mem_natDigits_isDigit n c hc
  rw [rfl_eq] at this
  exact absurd this (by decide)

theorem natDigits_inj : ∀ m n : Nat, natDigits m = natDigits n → m = n := by
  intro m
  induction m using Nat.strong_induction_on with
  | _ m ih =>
    intro n h
    rw [natDigits_def, natDigits_def n] at h
    split at h <;> split at h
    · rename_i hm hn
      simp only [List.cons.injEq, and_true] at h
      have := digitChar_inj_fin ⟨m, hm⟩ ⟨n, hn⟩ h
      exact congrArg Fin.val this
    · rename_i hm hn
      exfalso
      have hl := congrArg List.length h
      simp only [List.length_cons, List.length_append, List.length_nil] at hl
      have : natDigits (n / 10) = [] := List.eq_nil_of_length_eq_zero (by omega)
      exact natDigits_ne_nil _ this
    · rename_i hm hn
      exfalso
      have hl := congrArg List.length h
      simp only [List.length_cons, List.length_append, List.length_nil] at hl
      have : natDigits (m / 10) = [] := List.eq_nil_of_length_eq_zero (by omega)
      exact natDigits_ne_nil _ this
    · rename_i hm hn
      have hinj := List.append_inj' h (by simp)
      have h1 : m / 10 = n / 10 :=
        ih (m / 10) (Nat.div_lt_self (by omega) (by omega)) _ hinj.1
      have h2 : m % 10 = n % 10 := by
        have hx := hinj.2
        simp only [List.cons.injEq, and_true] at hx
        have := digitChar_inj_fin ⟨m % 10, Nat.mod_lt _ (by omega)⟩
          ⟨n % 10, Nat.mod_lt _ (by omega)⟩ hx
        exact congrArg Fin.val this
      omega

theorem intChars_no_underscore (i : Int) (c : Char) (hc : c ∈ intChars i) :
    c ≠ '_' := by
  unfold intChars at hc
  split at hc
  · rcases List.mem_cons.mp hc with h | h
    · intro he; rw [he] at h; exact absurd h (by decide)
    · exact mem_natDigits_ne_underscore _ _ h
  · exact mem_natDigits_ne_underscore _ _ hc

theorem intChars_inj (i j : Int) (h : intChars i = intChars j) : i = j := by
  unfold intChars at h
  split at h <;> split at h
  · rename_i hi hj
    simp only [List.cons.injEq, true_and] at h
    have := natDigits_inj _ _ h
    omega
  · rename_i hi hj
    exfalso
    have : '-' ∈ natDigits j.toNat := h ▸ List.mem_cons_self _ _
    exact mem_natDigits_ne_minus _ _ this rfl
  · rename_i hi hj
    exfalso
    have : '-' ∈ natDigits i.toNat := h.symm ▸ List.mem_cons_self _ _
    exact mem_natDigits_ne_minus _ _ this rfl
  · rename_i hi hj
    have := natDigits_inj _ _ h
    omega

/-- If two lists agree and each is (underscore-free) ++ '_' :: tail,
the underscore-free parts and the tails agree: the first underscore is
an unambiguous separator. -/
theorem sep_append_inj : ∀ (xs ys t u : List Char),
    (∀ c ∈ xs, c ≠ '_') → (∀ c ∈ ys, c ≠ '_') →
    xs ++ '_' :: t = ys ++ '_' :: u → xs = ys ∧ t = u := by
  intro xs
  induction xs with
  | nil =>
    intro ys t u _ hy h
    cases ys with
    | nil =>
      simp only [List.nil_append, List.cons.injEq, true_and] at h
      exact ⟨rfl, h⟩
    | cons d ds =>
      exfalso
      simp only [List.nil_append, List.cons_append, List.cons.injEq] at h
      exact hy d (List.mem_cons_self _ _) h.1.symm
  | cons c cs ih =>
    intro ys t u hx hy h
    cases ys with
    | nil =>
      exfalso
      simp only [List.cons_append, List.nil_append, List.cons.injEq] at h
      exact hx c (List.mem_cons_self _ _) h.1
    | cons d ds =>
      simp only [List.cons_append, List.cons.injEq] at h
      obtain ⟨hcd, htl⟩ := h
      have := ih ds t u (fun a ha => hx a (List.mem_cons_of_mem _ ha))
        (fun a ha => hy a (List.mem_cons_of_mem _ ha)) htl
      exact ⟨by rw [hcd, this.1], this.2⟩

/-- C7: the cache key `applicants_page_%d_limit_%d` derived by
GetApplicants is a deterministic function of the (page, limit) integer
pair and is injective: two pairs derive the same key exactly when they
are the same pair. -/
theorem cacheKey_deterministic_injective (p1 l1 p2 l2 : Int) :
    listCacheKey p1 l1 = listCacheKey p2 l2 ↔ p1 = p2 ∧ l1 = l2 := by
  constructor
  · intro h
    unfold listCacheKey at h
    have hd : "applicants_page_".data ++ intChars p1 ++ "_limit_".data ++ intChars l1
        = "applicants_page_".data ++ intChars p2 ++ "_limit_".data ++ intChars l2 :=
      congrArg String.data h
    have e1 : "applicants_page_".data
        = ['a','p','p','l','i','c','a','n','t','s','_','p','a','g','e','_'] := rfl
    have e2 : "_limit_".data = ['_','l','i','m','i','t','_'] := rfl
    rw [e1, e2] at hd
    simp only [List.append_assoc, List.cons_append, List.nil_append,
      List.cons.injEq, true_and] at hd
    have hsep := sep_append_inj (intChars p1) (intChars p2)
        ('l' :: 'i' :: 'm' :: 'i' :: 't' :: '_' :: intChars l1)
        ('l' :: 'i' :: 'm' :: 'i' :: 't' :: '_' :: intChars l2)
        (intChars_no_underscore p1) (intChars_no_underscore p2) hd
    obtain ⟨hp, ht⟩ := hsep
    simp only [List.cons.injEq, true_and] at ht
    exact ⟨intChars_inj _ _ hp, intChars_inj _ _ ht⟩
  · rintro ⟨rfl, rfl⟩
    rfl

/-- C7 witness: concrete instances — distinct pairs give distinct keys,
equal pairs the same key. -/
theorem cacheKey_deterministic_injective_witness :
    listCacheKey 2 10 ≠ listCacheKey 1 20 ∧ listCacheKey 1 10 = listCacheKey 1 10 :=
  ⟨fun h => absurd ((cacheKey_deterministic_injective 2 10 1 20).mp h).1 (by decide),
   (cacheKey_deterministic_injective 1 10 1 10).mpr ⟨rfl, rfl⟩⟩

/-! ## GetApplicants: cache-aside behaviour -/

/-- C2: the list endpoint follows cache-aside. On a hit under the
derived key the response is exactly the cached page and the store is not
queried (no store query, no cache write, state unchanged); on a miss the
store is queried with offset (page-1)*limit and that limit, and — when
the store succeeds — the result is returned and written to the cache
under the derived key with a TTL of exactly 3 minutes (180 s). -/
theorem list_cache_aside (pq lq : Option String) (s : Sys) :
    (∀ v, cacheGet s.cache
        (listCacheKey (goAtoi (pq.getD "1")) (goAtoi (lq.getD "10"))) = CacheResult.hit v →
      (GetApplicants pq lq s).status = 200 ∧
      (GetApplicants pq lq s).data = v ∧
      (GetApplicants pq lq s).storeQueries = [] ∧
      (GetApplicants pq lq s).cacheSets = [] ∧
      (GetApplicants pq lq s).sys = s) ∧
    (cacheGet s.cache
        (listCacheKey (goAtoi (pq.getD "1")) (goAtoi (lq.getD "10"))) = CacheResult.miss →
      (GetApplicants pq lq s).storeQueries
        = [((goAtoi (pq.getD "1") - 1) * goAtoi (lq.getD "10"), goAtoi (lq.getD "10"))] ∧
      ∀ apps, dbListQuery s.db ((goAtoi (pq.getD "1") - 1) * goAtoi (lq.getD "10"))
          (goAtoi (lq.getD "10")) = Except.ok apps →
        (GetApplicants pq lq s).status = 200 ∧
        (GetApplicants pq lq s).data = apps ∧
        (GetApplicants pq lq s).sys.db = s.db ∧
        (GetApplicants pq lq s).sys.cache
          = cacheSet s.cache (listCacheKey (goAtoi (pq.getD "1")) (goAtoi (lq.getD "10"))) apps 180 ∧
        (GetApplicants pq lq s).cacheSets
          = [(listCacheKey (goAtoi (pq.getD "1")) (goAtoi (lq.getD "10")), apps, 180)]) := by
  constructor
  · intro v hv
    simp [GetApplicants, hv]
  · intro hm
    constructor
    · simp only [GetApplicants, hm]
      split <;> rfl
    · intro apps ha
      simp [GetApplicants, hm, ha]

/-- C2 witness: a concrete hit is served from the cache without touching
the store. -/
theorem list_cache_aside_witness :
    (GetApplicants (some "1") (some "10")
      { db := { rows := [], nextId := 1, findErr := false, listErr := false
                insertErr := false, updateErr := false, deleteErr := false }
        cache := { entries := [("applicants_page_1_limit_10", [], 120)], down := false } }).status
        = 200 ∧
    (GetApplicants (some "1") (some "10")
      { db := { rows := [], nextId := 1, findErr := false, listErr := false
                insertErr := false, updateErr := false, deleteErr := false }
        cache := { entries := [("applicants_page_1_limit_10", [], 120)], down := false } }).storeQueries
        = [] :=
  have h := (list_cache_aside (some "1") (some "10")
    { db := { rows := [], nextId := 1, findErr := false, listErr := false
              insertErr := false, updateErr := false, deleteErr := false }
      cache := { entries := [("applicants_page_1_limit_10", [], 120)], down := false } }).1
    [] (by decide)
  ⟨h.1, h.2.2.1⟩

theorem cacheGet_down (c : CacheState) (k : String) (h : c.down = true) :
    cacheGet c k = CacheResult.err := by
  simp [cacheGet, h]

/-- C5: when the cache backend is unreachable every List request is
served straight from the store with the miss-path offset/limit, no
cache write is attempted, the cache and store state are untouched, and
the request's outcome depends only on the store: success of the store
query yields 200 with its rows, and a 500 can only come from a store
error. -/
theorem list_cache_unreachable_fallback (pq lq : Option String) (s : Sys)
    (hdown : s.cache.down = true) :
    (GetApplicants pq lq s).storeQueries
      = [((goAtoi (pq.getD "1") - 1) * goAtoi (lq.getD "10"), goAtoi (lq.getD "10"))] ∧
    (GetApplicants pq lq s).cacheSets = [] ∧
    (GetApplicants pq lq s).sys = s ∧
    (∀ apps, dbListQuery s.db ((goAtoi (pq.getD "1") - 1) * goAtoi (lq.getD "10"))
        (goAtoi (lq.getD "10")) = Except.ok apps →
      (GetApplicants pq lq s).status = 200 ∧ (GetApplicants pq lq s).data = apps) ∧
    (∀ e, dbListQuery s.db ((goAtoi (pq.getD "1") - 1) * goAtoi (lq.getD "10"))
        (goAtoi (lq.getD "10")) = Except.error e →
      (GetApplicants pq lq s).status = 500) := by
  have hg := cacheGet_down s.cache
    (listCacheKey (goAtoi (pq.getD "1")) (goAtoi (lq.getD "10"))) hdown
  refine ⟨?_, ?_, ?_, ?_, ?_⟩
  · simp only [GetApplicants, hg]
    split <;> rfl
  · simp only [GetApplicants, hg]
    split <;> rfl
  · simp only [GetApplicants, hg]
    split <;> rfl
  · intro apps ha
    simp [GetApplicants, hg, ha]
  · intro e he
    simp [GetApplicants, hg, he]

/-- C5 witness: a concrete request against a down cache backend. -/
theorem list_cache_unreachable_fallback_witness :
    (GetApplicants none none
      { db := { rows := [], nextId := 1, findErr := false, listErr := false
                insertErr := false, updateErr := false, deleteErr := false }
        cache := { entries := [], down := true } }).status = 200 ∧
    (GetApplicants none none
      { db := { rows := [], nextId := 1, findErr := false, listErr := false
                insertErr := false, updateErr := false, deleteErr := false }
        cache := { entries := [], down := true } }).cacheSets = [] :=
  have h := list_cache_unreachable_fallback none none
    { db := { rows := [], nextId := 1, findErr := false, listErr := false
              insertErr := false, updateErr := false, deleteErr := false }
      cache := { entries := [], down := true } } rfl
  ⟨(h.2.2.2.1 [] rfl).1, h.2.1⟩

/-! ## Pagination parameter parsing (claim C3) -/

/-- C3 counterexample: a NON-numeric page/limit parameter is not
treated as page=1 / limit=10. With `page=abc&limit=7` the handler's
effective page is 0 (the ignored-error result of `strconv.Atoi`), and
the store is queried with offset (0-1)*7 = -7 — not with page 1. -/
theorem list_nonnumeric_page_is_zero :
    (GetApplicants (some "abc") (some "7")
      { db := { rows := [], nextId := 1, findErr := false, listErr := false
                insertErr := false, updateErr := false, deleteErr := false }
        cache := { entries := [], down := false } }).page = 0 ∧
    (GetApplicants (some "abc") (some "7")
      { db := { rows := [], nextId := 1, findErr := false, listErr := false
                insertErr := false, updateErr := false, deleteErr := false }
        cache := { entries := [], down := false } }).page ≠ 1 ∧
    (GetApplicants (some "abc") (some "7")
      { db := { rows := [], nextId := 1, findErr := false, listErr := false
                insertErr := false, updateErr := false, deleteErr := false }
        cache := { entries := [], down := false } }).storeQueries = [(-7, 7)] ∧
    (GetApplicants (some "abc") (some "7")
      { db := { rows := [], nextId := 1, findErr := false, listErr := false
                insertErr := false, updateErr := false, deleteErr := false }
        cache := { entries := [], down := false } }).cacheKeyUsed
      = "applicants_page_0_limit_7" := by
  refine ⟨rfl, by decide, rfl, rfl⟩

/-- C3 amended: an ABSENT page/limit parameter defaults to page=1 /
limit=10, but a present non-numeric one parses to 0 (`strconv.Atoi`'s
error is discarded together with its zero result); in all cases the
echoed page/limit, the cache key and the store query are built from
those same parsed values. -/
theorem list_pagination_defaults (pq lq : Option String) (s : Sys) :
    (GetApplicants pq lq s).page = goAtoi (pq.getD "1") ∧
    (GetApplicants pq lq s).limit = goAtoi (lq.getD "10") ∧
    (pq = none → (GetApplicants pq lq s).page = 1) ∧
    (lq = none → (GetApplicants pq lq s).limit = 10) ∧
    (∀ str, pq = some str → isGoNumeric str = false → (GetApplicants pq lq s).page = 0) ∧
    (∀ str, lq = some str → isGoNumeric str = false → (GetApplicants pq lq s).limit = 0) ∧
    (GetApplicants pq lq s).cacheKeyUsed
      = listCacheKey (goAtoi (pq.getD "1")) (goAtoi (lq.getD "10")) ∧
    ((GetApplicants pq lq s).storeQueries = [] ∨
     (GetApplicants pq lq s).storeQueries
       = [((goAtoi (pq.getD "1") - 1) * goAtoi (lq.getD "10"), goAtoi (lq.getD "10"))]) := by
  have hpage : (GetApplicants pq lq s).page = goAtoi (pq.getD "1") := by
    simp only [GetApplicants]
    split <;> first | rfl | (split <;> rfl)
  have hlimit : (GetApplicants pq lq s).limit = goAtoi (lq.getD "10") := by
    simp only [GetApplicants]
    split <;> first | rfl | (split <;> rfl)
  refine ⟨hpage, hlimit, ?_, ?_, ?_, ?_, ?_, ?_⟩
  · rintro rfl
    rw [hpage]
    rfl
  · rintro rfl
    rw [hlimit]
    rfl
  · rintro str rfl hnum
    rw [hpage]
    simp [goAtoi, hnum]
  · rintro str rfl hnum
    rw [hlimit]
    simp [goAtoi, hnum]
  · simp only [GetApplicants]
    split <;> first | rfl | (split <;> rfl)
  · simp only [GetApplicants]
    split <;> first | (left; rfl) | (right; rfl) | (split <;> first | (left; rfl) | (right; rfl))

/-- C3 amended witness: absent parameters give page 1, limit 10; a
non-numeric limit gives 0. -/
theorem list_pagination_defaults_witness :
    (GetApplicants none none
      { db := { rows := [], nextId := 1, findErr := false, listErr := false
                insertErr := false, updateErr := false, deleteErr := false }
        cache := { entries := [], down := false } }).page = 1 ∧
    (GetApplicants none (some "ten")
      { db := { rows := [], nextId := 1, findErr := false, listErr := false
                insertErr := false, updateErr := false, deleteErr := false }
        cache := { entries := [], down := false } }).limit = 0 :=
  ⟨(list_pagination_defaults none none _).2.2.1 rfl,
   (list_pagination_defaults none (some "ten") _).2.2.2.2.2.1 "ten" rfl (by decide)⟩

/-! ## Extraction lemmas for the store primitives and handlers -/

theorem dbFirstById_ok (db : DbState) (i : Nat) (a : Applicant)
    (h : dbFirstById db i = Except.ok a) :
    db.findErr = false ∧ a ∈ db.rows ∧ a.deletedAt = none ∧ a.id = i := by
  unfold dbFirstById at h
  split at h
  · exact absurd h (by simp)
  · rename_i hf
    split at h
    · rename_i r hr
      obtain rfl : r = a := by injection h
      have hmem := List.mem_of_find?_eq_some hr
      have hp := List.find?_some hr
      simp only [Bool.and_eq_true, Option.isNone_iff_eq_none, beq_iff_eq] at hp
      exact ⟨by simpa using hf, hmem, hp.1, hp.2⟩
    · exact absurd h (by simp)

theorem dbFirstByEmail_error_of_no_live (db : DbState) (e : String)
    (hnone : ∀ r ∈ db.rows, ¬(r.deletedAt = none ∧ r.email = e)) :
    ∃ er, dbFirstByEmail db e = Except.error er := by
  unfold dbFirstByEmail
  split
  · exact ⟨.storeErr, rfl⟩
  · have : db.rows.find? (fun r => r.deletedAt.isNone && r.email == e) = none := by
      rw [List.find?_eq_none]
      intro r hr hp
      simp only [Bool.and_eq_true, Option.isNone_iff_eq_none, beq_iff_eq] at hp
      exact hnone r hr hp
    rw [this]
    exact ⟨.notFound, rfl⟩

theorem dbInsert_ok (db : DbState) (a : Applicant) (now : Nat)
    (db' : DbState) (a' : Applicant) (h : dbInsert db a now = Except.ok (db', a')) :
    db.insertErr = false ∧
    db.rows.any (fun r => r.email == a.email) = false ∧
    a' = { a with id := db.nextId, createdAt := now, updatedAt := now } ∧
    db' = { db with rows := db.rows ++ [a'], nextId := db.nextId + 1 } := by
  unfold dbInsert at h
  split at h
  · exact absurd h (by simp)
  · rename_i hc
    simp only [Bool.or_eq_true, not_or, Bool.not_eq_true] at hc
    refine ⟨hc.1, hc.2, ?_, ?_⟩ <;>
    · injection h with h1
      simp only [Prod.mk.injEq] at h1
      obtain ⟨hdb, ha⟩ := h1
      first
        | exact ha.symm
        | rw [← ha, ← hdb]

theorem createReady_email (a : Applicant) : (createReady a).email = a.email := by
  unfold createReady
  split <;> rfl

theorem createReady_deletedAt (a : Applicant) : (createReady a).deletedAt = a.deletedAt := by
  unfold createReady
  split <;> rfl

theorem dbUpdate_ok (db : DbState) (target upd : Applicant) (now : Nat)
    (db' : DbState) (m : Applicant) (h : dbUpdate db target upd now = Except.ok (db', m)) :
    db.updateErr = false ∧ m = mergeUpdate target upd now ∧
    db' = { db with rows := db.rows.map (fun r => if r.id == target.id then mergeUpdate target upd now else r) } := by
  unfold dbUpdate at h
  split at h
  · exact absurd h (by simp)
  · rename_i hc
    refine ⟨by simpa using hc, ?_, ?_⟩ <;>
    · injection h with h1
      simp only [Prod.mk.injEq] at h1
      obtain ⟨hdb, ha⟩ := h1
      first
        | exact ha.symm
        | exact hdb.symm

theorem dbDelete_ok (db : DbState) (a : Applicant) (now : Nat) (db' : DbState)
    (h : dbDelete db a now = Except.ok db') :
    db.deleteErr = false ∧
    db' = { db with rows := db.rows.map (fun r => if r.id == a.id && r.deletedAt.isNone then { r with deletedAt := some now } else r) } := by
  unfold dbDelete at h
  split at h
  · exact absurd h (by simp)
  · rename_i hc
    refine ⟨by simpa using hc, ?_⟩
    injection h with h1
    exact h1.symm

/-- Characterization of a successful create: the validation chain
passed, the insert succeeded on the sanitized, status-defaulted record,
and the response/state/effects are exactly the 201 outcome. -/
theorem CreateApplicant_201 (input : Applicant) (now : Nat) (s : Sys)
    (h : (CreateApplicant input now s).status = 201) :
    createChecksPass (sanitizeCreate input) = true ∧
    ∃ db' a', dbInsert s.db (createReady (sanitizeCreate input)) now = Except.ok (db', a') ∧
      CreateApplicant input now s =
        { status := 201, body := some a'
          sys := { db := db', cache := cacheDel s.cache fixedKeys }
          dels := fixedKeys } := by
  have hchecks : createChecksPass (sanitizeCreate input) = true := by
    by_contra hc
    rw [Bool.not_eq_true] at hc
    simp [CreateApplicant, hc] at h
  cases hfb : dbFirstByEmail s.db (createReady (sanitizeCreate input)).email with
  | ok a => simp [CreateApplicant, hchecks, hfb] at h
  | error e =>
    cases hins : dbInsert s.db (createReady (sanitizeCreate input)) now with
    | error e2 => simp [CreateApplicant, hchecks, hfb, hins] at h
    | ok p =>
      obtain ⟨db', a'⟩ := p
      exact ⟨hchecks, db', a', rfl, by simp [CreateApplicant, hchecks, hfb, hins]⟩

/-- Characterization of a successful update. -/
theorem UpdateApplicant_200 (i : Nat) (upd : Applicant) (now : Nat) (s : Sys)
    (h : (UpdateApplicant i upd now s).status = 200) :
    ∃ a db' m, dbFirstById s.db i = Except.ok a ∧
      dbUpdate s.db a upd now = Except.ok (db', m) ∧
      UpdateApplicant i upd now s =
        { status := 200, body := some m
          sys := { db := db', cache := cacheDel s.cache fixedKeys }
          dels := fixedKeys } := by
  cases hfb : dbFirstById s.db i with
  | error e => simp [UpdateApplicant, hfb] at h
  | ok a =>
    cases hup : dbUpdate s.db a upd now with
    | error e => simp [UpdateApplicant, hfb, hup] at h
    | ok p =>
      obtain ⟨db', m⟩ := p
      exact ⟨a, db', m, rfl, hup, by simp [UpdateApplicant, hfb, hup]⟩

/-- Characterization of a successful delete. -/
theorem DeleteApplicant_200 (i : Nat) (now : Nat) (s : Sys)
    (h : (DeleteApplicant i now s).status = 200) :
    ∃ a db', dbFirstById s.db i = Except.ok a ∧
      dbDelete s.db a now = Except.ok db' ∧
      DeleteApplicant i now s =
        { status := 200
          sys := { db := db', cache := cacheDel s.cache fixedKeys }
          dels := fixedKeys } := by
  cases hfb : dbFirstById s.db i with
  | error e => simp [DeleteApplicant, hfb] at h
  | ok a =>
    cases hdel : dbDelete s.db a now with
    | error e => simp [DeleteApplicant, hfb, hdel] at h
    | ok db' =>
      exact ⟨a, db', rfl, hdel, by simp [DeleteApplicant, hfb, hdel]⟩

/-! ## Failure surfacing (claim C4) -/

/-- C4 counterexample: the claim "store errors always surface as 500,
never NotFound" is false. With an applicant table containing a live row
with id 1 but the store's lookup failing with a STORE error (not
record-not-found), GetApplicant answers 404, not 500: the code maps any
`First` error to NotFound. -/
theorem store_error_counterexample :
    (GetApplicant 1
      { db := { rows := [⟨1, 0, 0, none, "Ann", "ann@x.com", "dev", "pending", "", "", ""⟩]
                nextId := 2, findErr := true, listErr := false, insertErr := false
                updateErr := false, deleteErr := false }
        cache := { entries := [], down := false } }).status = 404 ∧
    (GetApplicant 1
      { db := { rows := [⟨1, 0, 0, none, "Ann", "ann@x.com", "dev", "pending", "", "", ""⟩]
                nextId := 2, findErr := true, listErr := false, insertErr := false
                updateErr := false, deleteErr := false }
        cache := { entries := [], down := false } }).status ≠ 500 :=
  ⟨rfl, by decide⟩

/-- C4 amended: store errors on the list query, the insert, the update
write and the delete write surface as Internal (500); but a store error
during the by-id existence lookup surfaces as NotFound (404) in Get,
Update and Delete, because the code maps every lookup error to 404. -/
theorem store_error_surface (s : Sys) :
    (∀ i, s.db.findErr = true → (GetApplicant i s).status = 404) ∧
    (∀ i upd now, s.db.findErr = true → (UpdateApplicant i upd now s).status = 404) ∧
    (∀ i now, s.db.findErr = true → (DeleteApplicant i now s).status = 404) ∧
    (∀ pq lq, s.db.listErr = true →
      (∀ v, cacheGet s.cache
        (listCacheKey (goAtoi (pq.getD "1")) (goAtoi (lq.getD "10"))) ≠ CacheResult.hit v) →
      (GetApplicants pq lq s).status = 500) ∧
    (∀ input now, createChecksPass (sanitizeCreate input) = true →
      s.db.insertErr = true →
      (∀ r ∈ s.db.rows, ¬(r.deletedAt = none ∧ r.email = (sanitizeCreate input).email)) →
      (CreateApplicant input now s).status = 500) ∧
    (∀ i upd now a, dbFirstById s.db i = Except.ok a → s.db.updateErr = true →
      (UpdateApplicant i upd now s).status = 500) ∧
    (∀ i now a, dbFirstById s.db i = Except.ok a → s.db.deleteErr = true →
      (DeleteApplicant i now s).status = 500) := by
  refine ⟨?_, ?_, ?_, ?_, ?_, ?_, ?_⟩
  · intro i hf
    simp [GetApplicant, dbFirstById, hf]
  · intro i upd now hf
    simp [UpdateApplicant, dbFirstById, hf]
  · intro i now hf
    simp [DeleteApplicant, dbFirstById, hf]
  · intro pq lq hlist hnohit
    cases hc : cacheGet s.cache
        (listCacheKey (goAtoi (pq.getD "1")) (goAtoi (lq.getD "10"))) with
    | hit v => exact absurd hc (hnohit v)
    | miss => simp [GetApplicants, hc, dbListQuery, hlist]
    | err => simp [GetApplicants, hc, dbListQuery, hlist]
  · intro input now hchecks hins hnolive
    obtain ⟨er, hfb⟩ := dbFirstByEmail_error_of_no_live s.db
      (sanitizeCreate input).email hnolive
    rw [← createReady_email (sanitizeCreate input)] at hfb
    simp [CreateApplicant, hchecks, hfb, dbInsert, hins]
  · intro i upd now a hfb hupd
    simp [UpdateApplicant, hfb, dbUpdate, hupd]
  · intro i now a hfb hdel
    simp [DeleteApplicant, hfb, dbDelete, hdel]

/-- C4 amended witness: a failing lookup gives 404 on Get; a failing
update write gives 500 on Update. -/
theorem store_error_surface_witness :
    (GetApplicant 7
      { db := { rows := [], nextId := 1, findErr := true, listErr := false
                insertErr := false, updateErr := false, deleteErr := false }
        cache := { entries := [], down := false } }).status = 404 ∧
    (UpdateApplicant 1 ⟨0, 0, 0, none, "", "", "", "", "", "", ""⟩ 3
      { db := { rows := [⟨1, 0, 0, none, "Ann", "ann@x.com", "dev", "pending", "", "", ""⟩]
                nextId := 2, findErr := false, listErr := false, insertErr := false
                updateErr := true, deleteErr := false }
        cache := { entries := [], down := false } }).status = 500 :=
  ⟨(store_error_surface
      { db := { rows := [], nextId := 1, findErr := true, listErr := false
                insertErr := false, updateErr := false, deleteErr := false }
        cache := { entries := [], down := false } }).1 7 rfl,
   (store_error_surface
      { db := { rows := [⟨1, 0, 0, none, "Ann", "ann@x.com", "dev", "pending", "", "", ""⟩]
                nextId := 2, findErr := false, listErr := false, insertErr := false
                updateErr := true, deleteErr := false }
        cache := { entries := [], down := false } }).2.2.2.2.2.1 1
     ⟨0, 0, 0, none, "", "", "", "", "", "", ""⟩ 3
     ⟨1, 0, 0, none, "Ann", "ann@x.com", "dev", "pending", "", "", ""⟩ rfl rfl⟩

/-! ## Duplicate create (claim C1) -/

/-- C1 counterexample: the claim "first create succeeds ⇒ second create
with the same case-normalized email answers Conflict (409)" is false.
`gorm.DeletedAt` is settable from the request body, and Create inserts
it as-is, so a first create whose body carries a deleted_at timestamp
succeeds (201) with an already-soft-deleted row; a second create with
the same email then passes the live-scoped uniqueness check and its
insert trips the unconditional unique constraint: 500, not 409 — even
though the first create succeeded, the emails agree after
trimming/lowercasing, and the second input passes validation. -/
theorem create_duplicate_email_counterexample :
    (CreateApplicant ⟨0, 0, 0, some 1, "Ann", "ann@x.com", "dev", "", "", "", ""⟩ 5
      { db := { rows := [], nextId := 1, findErr := false, listErr := false, insertErr := false, updateErr := false, deleteErr := false }, cache := { entries := [], down := false } }).status = 201 ∧
    createChecksPass (sanitizeCreate ⟨0, 0, 0, none, "Bob", "Ann@X.com", "qa", "pending", "", "", ""⟩) = true ∧
    (sanitizeCreate (⟨0, 0, 0, none, "Bob", "Ann@X.com", "qa", "pending", "", "", ""⟩ : Applicant)).email
      = (sanitizeCreate (⟨0, 0, 0, some 1, "Ann", "ann@x.com", "dev", "", "", "", ""⟩ : Applicant)).email ∧
    (CreateApplicant ⟨0, 0, 0, none, "Bob", "Ann@X.com", "qa", "pending", "", "", ""⟩ 6
      (CreateApplicant ⟨0, 0, 0, some 1, "Ann", "ann@x.com", "dev", "", "", "", ""⟩ 5
        { db := { rows := [], nextId := 1, findErr := false, listErr := false, insertErr := false, updateErr := false, deleteErr := false }, cache := { entries := [], down := false } }).sys).status = 500 ∧
    (CreateApplicant ⟨0, 0, 0, none, "Bob", "Ann@X.com", "qa", "pending", "", "", ""⟩ 6
      (CreateApplicant ⟨0, 0, 0, some 1, "Ann", "ann@x.com", "dev", "", "", "", ""⟩ 5
        { db := { rows := [], nextId := 1, findErr := false, listErr := false, insertErr := false, updateErr := false, deleteErr := false }, cache := { entries := [], down := false } }).sys).status ≠ 409 := by
  refine ⟨rfl, rfl, rfl, rfl, by decide⟩

/-- C1 amended: if a create succeeds AND its body carries no deleted_at
(so the inserted row is live), then a second create supplying the same
case-normalized (trimmed, lowercased) email — and not rejected earlier
by input validation, which runs before the uniqueness check — answers
Conflict (409) and leaves the whole system state (in particular the
applicants table) unchanged: the pair yields exactly one success and
one Conflict. The store is assumed healthy (no injected lookup
failure). -/
theorem create_duplicate_email_conflict (in1 in2 : Applicant) (n1 n2 : Nat) (s : Sys)
    (hlive1 : in1.deletedAt = none)
    (hval : createChecksPass (sanitizeCreate in2) = true)
    (hemail : (sanitizeCreate in2).email = (sanitizeCreate in1).email)
    (hfind : s.db.findErr = false)
    (h1 : (CreateApplicant in1 n1 s).status = 201) :
    (CreateApplicant in2 n2 (CreateApplicant in1 n1 s).sys).status = 409 ∧
    (CreateApplicant in2 n2 (CreateApplicant in1 n1 s).sys).sys
      = (CreateApplicant in1 n1 s).sys := by
  obtain ⟨hchecks1, db', a', hins, heq⟩ := CreateApplicant_201 in1 n1 s h1
  obtain ⟨hinsErr, hany, ha', hdb'⟩ := dbInsert_ok _ _ _ _ _ hins
  have hfindb : db'.findErr = false := by
    rw [hdb']
    exact hfind
  have hmem : a' ∈ db'.rows := by
    rw [hdb']
    simp
  have hdel : a'.deletedAt = none := by
    rw [ha']
    show (createReady (sanitizeCreate in1)).deletedAt = none
    rw [createReady_deletedAt]
    exact hlive1
  have hem : a'.email = (sanitizeCreate in1).email := by
    rw [ha']
    exact createReady_email _
  have hfb : ∃ r, dbFirstByEmail db'
      (createReady (sanitizeCreate in2)).email = Except.ok r := by
    unfold dbFirstByEmail
    rw [hfindb]
    simp only [Bool.false_eq_true, if_false]
    cases hq : db'.rows.find?
        (fun r => r.deletedAt.isNone && r.email == (createReady (sanitizeCreate in2)).email) with
    | some r => exact ⟨r, rfl⟩
    | none =>
      exfalso
      rw [List.find?_eq_none] at hq
      apply hq a' hmem
      simp [hdel, hem, createReady_email, hemail]
  obtain ⟨r, hfb⟩ := hfb
  rw [heq]
  constructor <;> simp [CreateApplicant, hval, hfb]

/-- C1 amended witness: two concrete creates, the first with no
deleted_at in its body, whose emails agree after trimming and
lowercasing; the first gives 201, the second 409 with no state change. -/
theorem create_duplicate_email_conflict_witness :
    (CreateApplicant ⟨0, 0, 0, none, "Bob", "ANN@x.CoM", "qa", "pending", "", "", ""⟩ 6
      (CreateApplicant ⟨0, 0, 0, none, " Ann ", " Ann@X.com ", "dev", "", "", "", ""⟩ 5
        { db := { rows := [], nextId := 1, findErr := false, listErr := false
                  insertErr := false, updateErr := false, deleteErr := false }
          cache := { entries := [], down := false } }).sys).status = 409 ∧
    (CreateApplicant ⟨0, 0, 0, none, "Bob", "ANN@x.CoM", "qa", "pending", "", "", ""⟩ 6
      (CreateApplicant ⟨0, 0, 0, none, " Ann ", " Ann@X.com ", "dev", "", "", "", ""⟩ 5
        { db := { rows := [], nextId := 1, findErr := false, listErr := false
                  insertErr := false, updateErr := false, deleteErr := false }
          cache := { entries := [], down := false } }).sys).sys
      = (CreateApplicant ⟨0, 0, 0, none, " Ann ", " Ann@X.com ", "dev", "", "", "", ""⟩ 5
        { db := { rows := [], nextId := 1, findErr := false, listErr := false
                  insertErr := false, updateErr := false, deleteErr := false }
          cache := { entries := [], down := false } }).sys :=
  create_duplicate_email_conflict
    ⟨0, 0, 0, none, " Ann ", " Ann@X.com ", "dev", "", "", "", ""⟩
    ⟨0, 0, 0, none, "Bob", "ANN@x.CoM", "qa", "pending", "", "", ""⟩ 5 6
    { db := { rows := [], nextId := 1, findErr := false, listErr := false
              insertErr := false, updateErr := false, deleteErr := false }
      cache := { entries := [], down := false } }
    rfl (by decide) (by decide) rfl (by decide)

/-! ## Cache invalidation (claim C6) -/

theorem find?_filter_keys (ks : List String) (k : String)
    (l : List (String × List Applicant × Nat)) :
    (l.filter (fun e => !(ks.contains e.1))).find? (fun e => e.1 == k)
      = if ks.contains k then none else l.find? (fun e => e.1 == k) := by
  induction l with
  | nil => simp
  | cons e es ih =>
    rw [List.filter_cons]
    by_cases hke : ks.contains e.1 = true
    · simp only [hke, Bool.not_true, Bool.false_eq_true, if_false]
      rw [ih]
      by_cases hk : ks.contains k = true
      · rw [if_pos hk, if_pos hk]
      · have hne : (e.1 == k) = false := by
          rw [beq_eq_false_iff_ne]
          intro hek
          rw [hek] at hke
          exact hk hke
        simp only [hk, Bool.false_eq_true, if_false, List.find?_cons, hne]
    · simp only [Bool.not_eq_true] at hke
      simp only [hke, Bool.not_false, if_true]
      by_cases hq : (e.1 == k) = true
      · have hk : ks.contains k = false := by
          rw [beq_iff_eq] at hq
          rw [← hq]
          exact hke
        simp only [List.find?_cons, hq, hk, Bool.false_eq_true, if_false]
      · simp only [Bool.not_eq_true] at hq
        simp only [List.find?_cons, hq, ih]

theorem cacheDel_lookup (c : CacheState) (ks : List String) (k : String)
    (hdown : c.down = false) :
    cacheLookup (cacheDel c ks) k
      = if ks.contains k then none else cacheLookup c k := by
  unfold cacheDel cacheLookup
  rw [hdown]
  simp only [Bool.false_eq_true, if_false]
  rw [find?_filter_keys]
  by_cases hk : ks.contains k = true
  · rw [if_pos hk, if_pos hk]
  · rw [if_neg hk, if_neg hk]

/-- C6: every successful Create, Update or Delete passes exactly the two
hardcoded keys applicants_page_1_limit_10 and applicants_page_1_limit_20
to `rdb.Del`; with the cache reachable those two keys are gone
afterwards, and every other key's entry is untouched. -/
theorem mutation_invalidates_fixed_keys (s : Sys) (hdown : s.cache.down = false) :
    (∀ input now, (CreateApplicant input now s).status = 201 →
      (CreateApplicant input now s).dels = fixedKeys ∧
      cacheLookup (CreateApplicant input now s).sys.cache "applicants_page_1_limit_10" = none ∧
      cacheLookup (CreateApplicant input now s).sys.cache "applicants_page_1_limit_20" = none ∧
      ∀ k, fixedKeys.contains k = false →
        cacheLookup (CreateApplicant input now s).sys.cache k = cacheLookup s.cache k) ∧
    (∀ i upd now, (UpdateApplicant i upd now s).status = 200 →
      (UpdateApplicant i upd now s).dels = fixedKeys ∧
      cacheLookup (UpdateApplicant i upd now s).sys.cache "applicants_page_1_limit_10" = none ∧
      cacheLookup (UpdateApplicant i upd now s).sys.cache "applicants_page_1_limit_20" = none ∧
      ∀ k, fixedKeys.contains k = false →
        cacheLookup (UpdateApplicant i upd now s).sys.cache k = cacheLookup s.cache k) ∧
    (∀ i now, (DeleteApplicant i now s).status = 200 →
      (DeleteApplicant i now s).dels = fixedKeys ∧
      cacheLookup (DeleteApplicant i now s).sys.cache "applicants_page_1_limit_10" = none ∧
      cacheLookup (DeleteApplicant i now s).sys.cache "applicants_page_1_limit_20" = none ∧
      ∀ k, fixedKeys.contains k = false →
        cacheLookup (DeleteApplicant i now s).sys.cache k = cacheLookup s.cache k) := by
  refine ⟨?_, ?_, ?_⟩
  · intro input now h
    obtain ⟨_, db', a', _, heq⟩ := CreateApplicant_201 input now s h
    rw [heq]
    refine ⟨rfl, ?_, ?_, ?_⟩
    · rw [cacheDel_lookup s.cache fixedKeys _ hdown, if_pos (by decide)]
    · rw [cacheDel_lookup s.cache fixedKeys _ hdown, if_pos (by decide)]
    · intro k hk
      rw [cacheDel_lookup s.cache fixedKeys k hdown, if_neg (by intro hc; rw [hk] at hc; exact absurd hc (by decide))]
  · intro i upd now h
    obtain ⟨a, db', m, _, _, heq⟩ := UpdateApplicant_200 i upd now s h
    rw [heq]
    refine ⟨rfl, ?_, ?_, ?_⟩
    · rw [cacheDel_lookup s.cache fixedKeys _ hdown, if_pos (by decide)]
    · rw [cacheDel_lookup s.cache fixedKeys _ hdown, if_pos (by decide)]
    · intro k hk
      rw [cacheDel_lookup s.cache fixedKeys k hdown, if_neg (by intro hc; rw [hk] at hc; exact absurd hc (by decide))]
  · intro i now h
    obtain ⟨a, db', _, _, heq⟩ := DeleteApplicant_200 i now s h
    rw [heq]
    refine ⟨rfl, ?_, ?_, ?_⟩
    · rw [cacheDel_lookup s.cache fixedKeys _ hdown, if_pos (by decide)]
    · rw [cacheDel_lookup s.cache fixedKeys _ hdown, if_pos (by decide)]
    · intro k hk
      rw [cacheDel_lookup s.cache fixedKeys k hdown, if_neg (by intro hc; rw [hk] at hc; exact absurd hc (by decide))]

/-- C6 witness: a concrete successful delete removes the two fixed keys
and leaves a third key's entry intact. -/
theorem mutation_invalidates_fixed_keys_witness :
    (DeleteApplicant 1 9
      { db := { rows := [⟨1, 0, 0, none, "Ann", "ann@x.com", "dev", "pending", "", "", ""⟩]
                nextId := 2, findErr := false, listErr := false, insertErr := false
                updateErr := false, deleteErr := false }
        cache := { entries := [("applicants_page_1_limit_10", [], 60),
                              ("applicants_page_1_limit_20", [], 60),
                              ("applicants_page_2_limit_10", [], 60)], down := false } }).dels
      = fixedKeys ∧
    cacheLookup (DeleteApplicant 1 9
      { db := { rows := [⟨1, 0, 0, none, "Ann", "ann@x.com", "dev", "pending", "", "", ""⟩]
                nextId := 2, findErr := false, listErr := false, insertErr := false
                updateErr := false, deleteErr := false }
        cache := { entries := [("applicants_page_1_limit_10", [], 60),
                              ("applicants_page_1_limit_20", [], 60),
                              ("applicants_page_2_limit_10", [], 60)], down := false } }).sys.cache
      "applicants_page_1_limit_10" = none ∧
    cacheLookup (DeleteApplicant 1 9
      { db := { rows := [⟨1, 0, 0, none, "Ann", "ann@x.com", "dev", "pending", "", "", ""⟩]
                nextId := 2, findErr := false, listErr := false, insertErr := false
                updateErr := false, deleteErr := false }
        cache := { entries := [("applicants_page_1_limit_10", [], 60),
                              ("applicants_page_1_limit_20", [], 60),
                              ("applicants_page_2_limit_10", [], 60)], down := false } }).sys.cache
      "applicants_page_2_limit_10"
      = cacheLookup
        { entries := [("applicants_page_1_limit_10", [], 60),
                      ("applicants_page_1_limit_20", [], 60),
                      ("applicants_page_2_limit_10", [], 60)], down := false }
        "applicants_page_2_limit_10" :=
  have h := (mutation_invalidates_fixed_keys
    { db := { rows := [⟨1, 0, 0, none, "Ann", "ann@x.com", "dev", "pending", "", "", ""⟩]
              nextId := 2, findErr := false, listErr := false, insertErr := false
              updateErr := false, deleteErr := false }
      cache := { entries := [("applicants_page_1_limit_10", [], 60),
                            ("applicants_page_1_limit_20", [], 60),
                            ("applicants_page_2_limit_10", [], 60)], down := false } } rfl).2.2
    1 9 (by decide)
  ⟨h.1, h.2.1, h.2.2.2 "applicants_page_2_limit_10" (by decide)⟩

/-! ## Soft delete (claims C8, C9) -/

/-- C8: after a successful Delete(id), Get(id) answers NotFound (404):
the delete only marks the row's deleted_at, so the row is retained in
the table (with its deletion timestamp) but excluded from the
soft-delete-scoped lookup. -/
theorem delete_then_get_not_found (i now : Nat) (s : Sys)
    (h : (DeleteApplicant i now s).status = 200) :
    (GetApplicant i (DeleteApplicant i now s).sys).status = 404 ∧
    ∃ r ∈ (DeleteApplicant i now s).sys.db.rows, r.id = i ∧ r.deletedAt = some now := by
  obtain ⟨a, db', hfb, hdel, heq⟩ := DeleteApplicant_200 i now s h
  obtain ⟨hfindErr, hamem, hadel, haid⟩ := dbFirstById_ok s.db i a hfb
  obtain ⟨hdelErr, hdb'⟩ := dbDelete_ok s.db a now db' hdel
  have hrows : db'.rows = s.db.rows.map (fun r => if r.id == a.id && r.deletedAt.isNone then { r with deletedAt := some now } else r) := by
    rw [hdb']
  have hf2 : db'.findErr = false := by
    rw [hdb']
    exact hfindErr
  rw [heq]
  constructor
  · have hnone : db'.rows.find? (fun r => r.deletedAt.isNone && r.id == i) = none := by
      rw [hrows, List.find?_eq_none]
      intro x hx
      rw [List.mem_map] at hx
      obtain ⟨r, hr, rfl⟩ := hx
      by_cases hc : (r.id == a.id && r.deletedAt.isNone) = true
      · rw [if_pos hc]
        simp
      · rw [if_neg hc]
        intro hp
        simp only [Bool.and_eq_true, Option.isNone_iff_eq_none, beq_iff_eq] at hp hc
        exact hc ⟨by rw [hp.2, haid], hp.1⟩
    have hlookup : dbFirstById db' i = Except.error DbErr.notFound := by
      unfold dbFirstById
      rw [hf2]
      simp only [Bool.false_eq_true, if_false, hnone]
    simp [GetApplicant, hlookup]
  · refine ⟨{ a with deletedAt := some now }, ?_, haid, rfl⟩
    show { a with deletedAt := some now } ∈ db'.rows
    rw [hrows]
    have hfa : (fun r => if r.id == a.id && r.deletedAt.isNone then { r with deletedAt := some now } else r) a = { a with deletedAt := some now } := by
      simp [hadel]
    rw [← hfa]
    exact List.mem_map_of_mem _ hamem

/-- C8 witness: delete the only applicant, then Get answers 404 while
the row is still stored with its deletion timestamp. -/
theorem delete_then_get_not_found_witness :
    (GetApplicant 1 (DeleteApplicant 1 9
      { db := { rows := [⟨1, 0, 0, none, "Ann", "ann@x.com", "dev", "pending", "", "", ""⟩]
                nextId := 2, findErr := false, listErr := false, insertErr := false
                updateErr := false, deleteErr := false }
        cache := { entries := [], down := false } }).sys).status = 404 ∧
    ∃ r ∈ (DeleteApplicant 1 9
      { db := { rows := [⟨1, 0, 0, none, "Ann", "ann@x.com", "dev", "pending", "", "", ""⟩]
                nextId := 2, findErr := false, listErr := false, insertErr := false
                updateErr := false, deleteErr := false }
        cache := { entries := [], down := false } }).sys.db.rows,
      r.id = 1 ∧ r.deletedAt = some 9 :=
  delete_then_get_not_found 1 9
    { db := { rows := [⟨1, 0, 0, none, "Ann", "ann@x.com", "dev", "pending", "", "", ""⟩]
              nextId := 2, findErr := false, listErr := false, insertErr := false
              updateErr := false, deleteErr := false }
      cache := { entries := [], down := false } } (by decide)

/-- C9: a Create whose sanitized email equals the (lowercase) email of a
soft-deleted row still in storage answers Internal (500), not Conflict
(409), and inserts nothing: the pre-insert uniqueness check is scoped to
live rows and passes, but the insert trips the store's unconditional
unique constraint on email. (The store is healthy: both outcomes stem
from the constraint, not from injected failures.) -/
theorem create_softdeleted_email_internal (input : Applicant) (now : Nat) (s : Sys)
    (hval : createChecksPass (sanitizeCreate input) = true)
    (hdead : ∃ r ∈ s.db.rows, r.deletedAt ≠ none ∧ r.email = (sanitizeCreate input).email)
    (hlive : ∀ r ∈ s.db.rows, r.deletedAt = none → r.email ≠ (sanitizeCreate input).email) :
    (CreateApplicant input now s).status = 500 ∧
    (CreateApplicant input now s).status ≠ 409 ∧
    (CreateApplicant input now s).sys = s := by
  have hnolive : ∀ r ∈ s.db.rows,
      ¬(r.deletedAt = none ∧ r.email = (sanitizeCreate input).email) :=
    fun r hr hp => hlive r hr hp.1 hp.2
  obtain ⟨er, hfb⟩ := dbFirstByEmail_error_of_no_live s.db (sanitizeCreate input).email hnolive
  rw [← createReady_email (sanitizeCreate input)] at hfb
  have hany : (s.db.rows.any fun r => r.email == (createReady (sanitizeCreate input)).email) = true := by
    obtain ⟨r, hr, _, hrem⟩ := hdead
    rw [List.any_eq_true]
    refine ⟨r, hr, ?_⟩
    rw [createReady_email, beq_iff_eq]
    exact hrem
  have hins : dbInsert s.db (createReady (sanitizeCreate input)) now
      = Except.error DbErr.storeErr := by
    unfold dbInsert
    rw [hany]
    simp
  refine ⟨?_, ?_, ?_⟩ <;> simp [CreateApplicant, hval, hfb, hins]

/-- C9 witness: creating over a soft-deleted row with the same email —
500, not 409, and the table is unchanged. -/
theorem create_softdeleted_email_internal_witness :
    (CreateApplicant ⟨0, 0, 0, none, "Bob", " Ann@X.com ", "qa", "", "", "", ""⟩ 12
      { db := { rows := [⟨1, 0, 0, some 9, "Ann", "ann@x.com", "dev", "pending", "", "", ""⟩]
                nextId := 2, findErr := false, listErr := false, insertErr := false
                updateErr := false, deleteErr := false }
        cache := { entries := [], down := false } }).status = 500 ∧
    (CreateApplicant ⟨0, 0, 0, none, "Bob", " Ann@X.com ", "qa", "", "", "", ""⟩ 12
      { db := { rows := [⟨1, 0, 0, some 9, "Ann", "ann@x.com", "dev", "pending", "", "", ""⟩]
                nextId := 2, findErr := false, listErr := false, insertErr := false
                updateErr := false, deleteErr := false }
        cache := { entries := [], down := false } }).status ≠ 409 ∧
    (CreateApplicant ⟨0, 0, 0, none, "Bob", " Ann@X.com ", "qa", "", "", "", ""⟩ 12
      { db := { rows := [⟨1, 0, 0, some 9, "Ann", "ann@x.com", "dev", "pending", "", "", ""⟩]
                nextId := 2, findErr := false, listErr := false, insertErr := false
                updateErr := false, deleteErr := false }
        cache := { entries := [], down := false } }).sys
      = { db := { rows := [⟨1, 0, 0, some 9, "Ann", "ann@x.com", "dev", "pending", "", "", ""⟩]
                  nextId := 2, findErr := false, listErr := false, insertErr := false
                  updateErr := false, deleteErr := false }
          cache := { entries := [], down := false } } :=
  create_softdeleted_email_internal
    ⟨0, 0, 0, none, "Bob", " Ann@X.com ", "qa", "", "", "", ""⟩ 12
    { db := { rows := [⟨1, 0, 0, some 9, "Ann", "ann@x.com", "dev", "pending", "", "", ""⟩]
              nextId := 2, findErr := false, listErr := false, insertErr := false
              updateErr := false, deleteErr := false }
      cache := { entries := [], down := false } }
    (by decide) (by decide) (by decide)

/-! ## Partial update semantics (claim C10) -/

/-- C10: a successful Update(id, partial) merges only the non-zero
supplied fields: every string field supplied as the zero value "" (in
particular every field absent from the request body, which parses to "")
is left unchanged in the stored row, so no update can blank a previously
non-empty field; id and creation timestamp are never touched. -/
theorem update_zero_value_fields_unchanged (i : Nat) (upd : Applicant) (now : Nat)
    (s : Sys) (h : (UpdateApplicant i upd now s).status = 200) :
    ∃ old, dbFirstById s.db i = Except.ok old ∧
      (UpdateApplicant i upd now
      s).body = some (mergeUpdate old upd now) ∧
      (UpdateApplicant i upd now
      s).sys.db.rows = s.db.rows.map (fun r => if r.id == old.id then (mergeUpdate old upd now) else r) ∧
      (mergeUpdate old upd now).id = old.id ∧
      (mergeUpdate old upd now).createdAt = old.createdAt ∧
      (upd.name = "" → (mergeUpdate old upd now).name = old.name) ∧
      (upd.email = "" → (mergeUpdate old upd now).email = old.email) ∧
      (upd.position = "" → (mergeUpdate old upd now).position = old.position) ∧
      (upd.status = "" → (mergeUpdate old upd now).status = old.status) ∧
      (upd.phone = "" → (mergeUpdate old upd now).phone = old.phone) ∧
      (upd.resume = "" → (mergeUpdate old upd now).resume = old.resume) ∧
      (upd.notes = "" → (mergeUpdate old upd now).notes = old.notes) ∧
      (old.name ≠ "" → (mergeUpdate old upd now).name ≠ "") ∧
      (old.email ≠ "" → (mergeUpdate old upd now).email ≠ "") ∧
      (old.position ≠ "" → (mergeUpdate old upd now).position ≠ "") ∧
      (old.status ≠ "" → (mergeUpdate old upd now).status ≠ "") ∧
      (old.phone ≠ "" → (mergeUpdate old upd now).phone ≠ "") ∧
      (old.resume ≠ "" → (mergeUpdate old upd now).resume ≠ "") ∧
      (old.notes ≠ "" → (mergeUpdate old upd now).notes ≠ "") := by
  obtain ⟨a, db', m, hfb, hup, heq⟩ := UpdateApplicant_200 i upd now s h
  obtain ⟨hupdErr, hm, hdb'⟩ := dbUpdate_ok s.db a upd now db' m hup
  refine ⟨a, hfb, ?_, ?_, rfl, rfl, ?_, ?_, ?_, ?_, ?_, ?_, ?_, ?_, ?_, ?_, ?_, ?_, ?_, ?_⟩
  · rw [heq, hm]
  · rw [heq]
    show db'.rows = _
    rw [hdb']
  all_goals first
    | · intro hz
        simp [mergeUpdate, hz]
    | · intro hz
        simp only [mergeUpdate]
        split
        · exact hz
        · rename_i hu
          simpa using hu

/-- C10 witness: a concrete update that supplies only a new position —
name, email and the rest are the zero value and stay as stored. -/
theorem update_zero_value_fields_unchanged_witness :
    ∃ old, dbFirstById ({ db := { rows := [⟨1, 0, 0, none, "Ann", "ann@x.com", "dev", "pending", "", "", ""⟩], nextId := 2, findErr := false, listErr := false, insertErr := false, updateErr := false, deleteErr := false }, cache := { entries := [], down := false } } : Sys).db 1 = Except.ok old ∧
      (UpdateApplicant 1 (⟨0, 0, 0, none, "", "", "newpos", "", "", "", ""⟩ : Applicant) 7 { db := { rows := [⟨1, 0, 0, none, "Ann", "ann@x.com", "dev", "pending", "", "", ""⟩], nextId := 2, findErr := false, listErr := false, insertErr := false, updateErr := false, deleteErr := false }, cache := { entries := [], down := false } }).body = some (mergeUpdate old (⟨0, 0, 0, none, "", "", "newpos", "", "", "", ""⟩ : Applicant) 7) ∧
      (UpdateApplicant 1 (⟨0, 0, 0, none, "", "", "newpos", "", "", "", ""⟩ : Applicant) 7 { db := { rows := [⟨1, 0, 0, none, "Ann", "ann@x.com", "dev", "pending", "", "", ""⟩], nextId := 2, findErr := false, listErr := false, insertErr := false, updateErr := false, deleteErr := false }, cache := { entries := [], down := false } }).sys.db.rows = ({ db := { rows := [⟨1, 0, 0, none, "Ann", "ann@x.com", "dev", "pending", "", "", ""⟩], nextId := 2, findErr := false, listErr := false, insertErr := false, updateErr := false, deleteErr := false }, cache := { entries := [], down := false } } : Sys).db.rows.map (fun r => if r.id == old.id then (mergeUpdate old (⟨0, 0, 0, none, "", "", "newpos", "", "", "", ""⟩ : Applicant) 7) else r) ∧
      (mergeUpdate old (⟨0, 0, 0, none, "", "", "newpos", "", "", "", ""⟩ : Applicant) 7).id = old.id ∧
      (mergeUpdate old (⟨0, 0, 0, none, "", "", "newpos", "", "", "", ""⟩ : Applicant) 7).createdAt = old.createdAt ∧
      ((⟨0, 0, 0, none, "", "", "newpos", "", "", "", ""⟩ : Applicant).name = "" → (mergeUpdate old (⟨0, 0, 0, none, "", "", "newpos", "", "", "", ""⟩ : Applicant) 7).name = old.name) ∧
      ((⟨0, 0, 0, none, "", "", "newpos", "", "", "", ""⟩ : Applicant).email = "" → (mergeUpdate old (⟨0, 0, 0, none, "", "", "newpos", "", "", "", ""⟩ : Applicant) 7).email = old.email) ∧
      ((⟨0, 0, 0, none, "", "", "newpos", "", "", "", ""⟩ : Applicant).position = "" → (mergeUpdate old (⟨0, 0, 0, none, "", "", "newpos", "", "", "", ""⟩ : Applicant) 7).position = old.position) ∧
      ((⟨0, 0, 0, none, "", "", "newpos", "", "", "", ""⟩ : Applicant).status = "" → (mergeUpdate old (⟨0, 0, 0, none, "", "", "newpos", "", "", "", ""⟩ : Applicant) 7).status = old.status) ∧
      ((⟨0, 0, 0, none, "", "", "newpos", "", "", "", ""⟩ : Applicant).phone = "" → (mergeUpdate old (⟨0, 0, 0, none, "", "", "newpos", "", "", "", ""⟩ : Applicant) 7).phone = old.phone) ∧
      ((⟨0, 0, 0, none, "", "", "newpos", "", "", "", ""⟩ : Applicant).resume = "" → (mergeUpdate old (⟨0, 0, 0, none, "", "", "newpos", "", "", "", ""⟩ : Applicant) 7).resume = old.resume) ∧
      ((⟨0, 0, 0, none, "", "", "newpos", "", "", "", ""⟩ : Applicant).notes = "" → (mergeUpdate old (⟨0, 0, 0, none, "", "", "newpos", "", "", "", ""⟩ : Applicant) 7).notes = old.notes) ∧
      (old.name ≠ "" → (mergeUpdate old (⟨0, 0, 0, none, "", "", "newpos", "", "", "", ""⟩ : Applicant) 7).name ≠ "") ∧
      (old.email ≠ "" → (mergeUpdate old (⟨0, 0, 0, none, "", "", "newpos", "", "", "", ""⟩ : Applicant) 7).email ≠ "") ∧
      (old.position ≠ "" → (mergeUpdate old (⟨0, 0, 0, none, "", "", "newpos", "", "", "", ""⟩ : Applicant) 7).position ≠ "") ∧
      (old.status ≠ "" → (mergeUpdate old (⟨0, 0, 0, none, "", "", "newpos", "", "", "", ""⟩ : Applicant) 7).status ≠ "") ∧
      (old.phone ≠ "" → (mergeUpdate old (⟨0, 0, 0, none, "", "", "newpos", "", "", "", ""⟩ : Applicant) 7).phone ≠ "") ∧
      (old.resume ≠ "" → (mergeUpdate old (⟨0, 0, 0, none, "", "", "newpos", "", "", "", ""⟩ : Applicant) 7).resume ≠ "") ∧
      (old.notes ≠ "" → (mergeUpdate old (⟨0, 0, 0, none, "", "", "newpos", "", "", "", ""⟩ : Applicant) 7).notes ≠ "") :=
  update_zero_value_fields_unchanged 1 (⟨0, 0, 0, none, "", "", "newpos", "", "", "", ""⟩ : Applicant) 7
    { db := { rows := [⟨1, 0, 0, none, "Ann", "ann@x.com", "dev", "pending", "", "", ""⟩], nextId := 2, findErr := false, listErr := false, insertErr := false, updateErr := false, deleteErr := false }, cache := { entries := [], down := false } } (by decide)

end JobTracker
